import Mathlib

/-!
Verification development for the `autorefresh` capture-and-replay engine
(`index.js`).  The definitions below are a shallow embedding of the engine:
pure fragments of the JavaScript source become Lean functions, stateful
fragments become explicit state passing, and code paths that can throw are
modelled with `Except` or with oracles describing at which point a throw
occurs.  Coordinates are modelled with `ℚ` (the source computes with
JavaScript numbers; all the arithmetic the claims depend on is exact rational
arithmetic), timestamps with `ℤ` (`Date.now()` milliseconds).

Cosmetic operations of the source (console logging, the visual ripple /
indicator DOM elements, the fields `pageX`, `pageY` and `isInIframe` of a
recorded action) drive no control flow and are observed by no claim; they are
not modelled.
-/

namespace Autorefresh

/-- Action `type` values produced by the recorder (`recordAction`,
`recordNetworkAction`) and dispatched on by `replay` in `index.js`. -/
inductive ActionType
  | mousedown
  | mouseup
  | click
  | mousemove
  | networkAction
deriving DecidableEq

/-- The `networkActionType` field of a recorded network action
(`recordNetworkAction(actionType)` in `index.js`). -/
inductive NetworkActionType
  | enablePacketLoss
  | disablePacketLoss
deriving DecidableEq

/-- A frame offset `{x, y}` as computed by `stopRecording` from
`iframe.getBoundingClientRect()` (main frame gets `{0, 0}`). -/
structure Offset where
  x : ℚ
  y : ℚ
deriving DecidableEq

/-- One recorded action, as built by `recordAction` / `recordNetworkAction`
and tagged by `stopRecording`.  `frameIndex` and `frameOffset` are `Option`
because they are only attached when recording stops (and are absent on a
network action pushed by the keyboard handler); `networkActionType` is only
present on `networkAction` entries.  The cosmetic source fields `pageX`,
`pageY` and `isInIframe` are not modelled (no claim and no control flow reads
them). -/
structure Action where
  type : ActionType
  x : ℚ
  y : ℚ
  isDrag : Bool
  timestamp : ℤ
  isCanvas : Bool
  frameIndex : Option ℕ
  frameOffset : Option Offset
  networkActionType : Option NetworkActionType
deriving DecidableEq

/-! ## Loading a persisted recording (`finishLoading`, index.js 552-577)

The payload of a recording file after `JSON.parse`.  `arr` is the legacy
bare-array format (`Array.isArray(parsedData)`); `obj` is the
metadata-wrapped format, whose `actions` field is `none` when absent or
falsy (in the source every present `actions` value is an array, and every
JavaScript array, including the empty one, is truthy); `other` is any other
JSON value (a number, a string, `null`, an object without a truthy
`actions`), for which both format tests fail. -/
inductive Payload
  | arr (actions : List Action)
  | obj (actionsField : Option (List Action))
  | other
deriving DecidableEq

/-- The new value of `this.recordedActions` after `finishLoading` has read a
file whose parsed payload is `payload` (`none` models `JSON.parse` throwing,
which lands in the `catch` block).  `prior` is the Action Log held in memory
before the load; the source overwrites it on every path: with the file's
actions on success, and with `[]` in the invalid-format branch and in the
`catch` block (index.js 567 and 575). -/
def finishLoading (prior : List Action) (payload : Option Payload) : List Action :=
  match payload with
  | none => []
  | some (Payload.arr as) => as
  | some (Payload.obj (some as)) => as
  | some (Payload.obj none) => []
  | some Payload.other => []

/-- A load fails when `JSON.parse` throws or the payload is neither a bare
array nor an object with a (truthy) `actions` field. -/
def loadFails (payload : Option Payload) : Bool :=
  match payload with
  | none => true
  | some (Payload.arr _) => false
  | some (Payload.obj (some _)) => false
  | some (Payload.obj none) => true
  | some Payload.other => true

/-! ## Stop-recording merge (`stopRecording`, index.js 846-873) -/

/-- Tagging applied by `stopRecording` to every action read back from a
frame's buffer: `action.frameIndex = frameIndex;
action.frameOffset = iframeOffsets[frameIndex] || {x: 0, y: 0}`. -/
def tagAction (frameIndex : ℕ) (off : Offset) (a : Action) : Action :=
  { a with frameIndex := some frameIndex, frameOffset := some off }

/-- Reading back one frame's buffer in `stopRecording`.  `none` models a
frame whose `evaluate` threw (inaccessible frame): the `catch` skips it and
it contributes nothing. -/
def readFrameBuffer (offsets : List Offset) (frameIndex : ℕ)
    (buf : Option (List Action)) : List Action :=
  match buf with
  | none => []
  | some as => as.map (tagAction frameIndex ((offsets[frameIndex]?).getD ⟨0, 0⟩))

/-- Insertion of an action into a list sorted by `timestamp`, placed after
every element whose timestamp is `≤` its own (this matches the stable sort
`allActions.sort((a, b) => a.timestamp - b.timestamp)` of the source). -/
def insertByTimestamp (a : Action) : List Action → List Action
  | [] => [a]
  | b :: rest =>
      if b.timestamp ≤ a.timestamp then b :: insertByTimestamp a rest
      else a :: b :: rest

/-- Stable sort by `timestamp`, modelling
`allActions.sort((a, b) => a.timestamp - b.timestamp)`. -/
def sortByTimestamp : List Action → List Action
  | [] => []
  | a :: rest => insertByTimestamp a (sortByTimestamp rest)

/-- The merge step of `stopRecording`: read back every frame's buffer (in
frame order; inaccessible frames are skipped), tag each action with its
frame index and captured frame offset, concatenate, and sort the result by
capture timestamp. -/
def stopRecordingMerge (offsets : List Offset)
    (buffers : List (Option (List Action))) : List Action :=
  sortByTimestamp
    ((buffers.enum.map (fun pr => readFrameBuffer offsets pr.1 pr.2)).flatten)

lemma mem_insertByTimestamp {x a : Action} {l : List Action} :
    x ∈ insertByTimestamp a l ↔ x = a ∨ x ∈ l := by
  induction l with
  | nil => simp [insertByTimestamp]
  | cons b rest ih =>
      by_cases h : b.timestamp ≤ a.timestamp
      · simp only [insertByTimestamp, if_pos h, List.mem_cons, ih]
        tauto
      · simp only [insertByTimestamp, if_neg h, List.mem_cons]

lemma pairwise_insertByTimestamp {a : Action} {l : List Action}
    (h : l.Pairwise (fun u v => u.timestamp ≤ v.timestamp)) :
    (insertByTimestamp a l).Pairwise (fun u v => u.timestamp ≤ v.timestamp) := by
  induction l with
  | nil => simp [insertByTimestamp]
  | cons b rest ih =>
      rcases List.pairwise_cons.mp h with ⟨hb, hrest⟩
      by_cases hba : b.timestamp ≤ a.timestamp
      · rw [insertByTimestamp, if_pos hba]
        refine List.pairwise_cons.mpr ⟨?_, ih hrest⟩
        intro x hx
        rcases mem_insertByTimestamp.mp hx with rfl | hx'
        · exact hba
        · exact hb x hx'
      · rw [insertByTimestamp, if_neg hba]
        refine List.pairwise_cons.mpr ⟨?_, h⟩
        intro x hx
        rcases List.mem_cons.mp hx with rfl | hx'
        · omega
        · have := hb x hx'
          omega

lemma pairwise_sortByTimestamp (l : List Action) :
    (sortByTimestamp l).Pairwise (fun u v => u.timestamp ≤ v.timestamp) := by
  induction l with
  | nil => simp [sortByTimestamp]
  | cons a rest ih => exact pairwise_insertByTimestamp ih

/-! ## Network fault controller (`enablePacketLoss` / `disablePacketLoss`,
index.js 1309-1425)

A frame's emulated network condition: `blocked` is the
`Network.emulateNetworkConditions` call with `packetLoss: 100` and throughput
`1`; `normal` is the call with `packetLoss: 0` and throughput `-1`, which is
the no-throttling condition and therefore indistinguishable from a session
where emulation was never applied. -/
inductive NetCond
  | normal
  | blocked
deriving DecidableEq

/-- One child frame: `accessible` records whether `newCDPSession` on it
succeeds (cross-origin embeds reject the debug channel). -/
structure Frame where
  accessible : Bool
  cond : NetCond
deriving DecidableEq

/-- The network state of the page: the main frame and its child frames. -/
structure PageNet where
  mainAccessible : Bool
  mainCond : NetCond
  children : List Frame
deriving DecidableEq

/-- The per-child-frame `try { newCDPSession; send emulate } catch { skip }`
of both toggles: a frame that rejects the debug channel is left untouched. -/
def setChildCond (c : NetCond) (f : Frame) : Frame :=
  if f.accessible then { f with cond := c } else f

/-- The body of a toggle before its outer `catch`: opening the main frame's
CDP session may throw (modelled by `Except.error`); after that succeeds, the
main condition is set and every child frame is attempted under its own
`try`/`catch`. -/
def setAllFramesCond (c : NetCond) (s : PageNet) : Except Unit PageNet :=
  if s.mainAccessible then
    Except.ok { s with mainCond := c, children := s.children.map (setChildCond c) }
  else Except.error ()

/-- `enablePacketLoss` with its outer `try`/`catch`: any error is caught and
logged, so the operation never throws to its caller; if the main CDP session
failed, no condition was changed. -/
def enablePacketLossE (s : PageNet) : Except Unit PageNet :=
  match setAllFramesCond NetCond.blocked s with
  | Except.ok t => Except.ok t
  | Except.error _ => Except.ok s

/-- `disablePacketLoss` with its outer `try`/`catch` (same shape as
`enablePacketLossE`, sending the no-throttling condition instead). -/
def disablePacketLossE (s : PageNet) : Except Unit PageNet :=
  match setAllFramesCond NetCond.normal s with
  | Except.ok t => Except.ok t
  | Except.error _ => Except.ok s

/-- The state after `enablePacketLoss` returns. -/
def enablePacketLoss (s : PageNet) : PageNet :=
  match enablePacketLossE s with
  | Except.ok t => t
  | Except.error _ => s

/-- The state after `disablePacketLoss` returns. -/
def disablePacketLoss (s : PageNet) : PageNet :=
  match disablePacketLossE s with
  | Except.ok t => t
  | Except.error _ => s

/-- Whether an `Except`-producing toggle completed without throwing to its
caller. -/
def exOk (e : Except Unit PageNet) : Bool :=
  match e with
  | Except.ok _ => true
  | Except.error _ => false

/-- No fault is active on any frame. -/
def noFault (s : PageNet) : Prop :=
  s.mainCond = NetCond.normal ∧ ∀ f ∈ s.children, f.cond = NetCond.normal

instance (s : PageNet) : Decidable (noFault s) := by
  unfold noFault
  infer_instance

lemma setChild_normal_self {f : Frame} (hf : f.cond = NetCond.normal) :
    setChildCond NetCond.normal f = f := by
  obtain ⟨acc, cond⟩ := f
  cases acc <;> simp_all [setChildCond]

lemma setChild_roundtrip {f : Frame} (hf : f.cond = NetCond.normal) :
    setChildCond NetCond.normal (setChildCond NetCond.blocked f) = f := by
  obtain ⟨acc, cond⟩ := f
  cases acc <;> simp_all [setChildCond]

lemma setChild_idem (c : NetCond) (f : Frame) :
    setChildCond c (setChildCond c f) = setChildCond c f := by
  obtain ⟨acc, cond⟩ := f
  cases acc <;> simp [setChildCond]

lemma map_setChild_roundtrip {ch : List Frame}
    (h : ∀ f ∈ ch, f.cond = NetCond.normal) :
    (ch.map (setChildCond NetCond.blocked)).map (setChildCond NetCond.normal) = ch := by
  rw [List.map_map]
  have : ∀ f ∈ ch, (setChildCond NetCond.normal ∘ setChildCond NetCond.blocked) f = id f :=
    fun f hf => setChild_roundtrip (h f hf)
  rw [List.map_congr_left this, List.map_id]

lemma map_setChild_normal_self {ch : List Frame}
    (h : ∀ f ∈ ch, f.cond = NetCond.normal) :
    ch.map (setChildCond NetCond.normal) = ch := by
  have : ∀ f ∈ ch, setChildCond NetCond.normal f = id f :=
    fun f hf => setChild_normal_self (h f hf)
  rw [List.map_congr_left this, List.map_id]

lemma map_setChild_idem (c : NetCond) (ch : List Frame) :
    (ch.map (setChildCond c)).map (setChildCond c) = ch.map (setChildCond c) := by
  rw [List.map_map]
  exact List.map_congr_left fun f _ => setChild_idem c f

/-! ## Event capture subsystem (`startRecording`, index.js 726-762) -/

/-- DOM pointer event kinds relevant to the capture subsystem. -/
inductive DomEventKind
  | mousedown
  | mouseup
  | click
  | mousemove
deriving DecidableEq

/-- The event kinds for which `startRecording` installs a document listener
in each injectable frame: exactly `mousedown`, `mouseup` and `click`
(index.js 760-762).  No `mousemove` listener is installed. -/
def installedListenerKinds : List DomEventKind :=
  [DomEventKind.mousedown, DomEventKind.mouseup, DomEventKind.click]

/-- All three listeners are registered with `useCapture = true` (the third
argument of each `addEventListener` call). -/
def listenersUseCapture : Bool := true

/-- A DOM event as seen by an installed listener.  `sameDoc` is the test
`e.target.ownerDocument === document`; `now` is `Date.now()` at handling
time. -/
structure DomEvent where
  kind : DomEventKind
  clientX : ℚ
  clientY : ℚ
  sameDoc : Bool
  targetIsCanvas : Bool
  now : ℤ
deriving DecidableEq

/-- The per-frame shared recorder state `window.__mouseRecorder` (scroll
fields are not modelled: they only feed the cosmetic `pageX`/`pageY`). -/
structure FrameRecorder where
  actions : List Action
  isMouseDown : Bool
  startX : ℚ
  startY : ℚ
deriving DecidableEq

/-- Fresh recorder state, as (re)initialized by `startRecording`. -/
def initFrameRecorder : FrameRecorder :=
  { actions := [], isMouseDown := false, startX := 0, startY := 0 }

/-- The action object built by `recordAction(type, x, y, isDrag, target)`. -/
def mkAction (t : ActionType) (x y : ℚ) (isDrag : Bool) (now : ℤ)
    (isCanvas : Bool) : Action :=
  { type := t, x := x, y := y, isDrag := isDrag, timestamp := now,
    isCanvas := isCanvas, frameIndex := none, frameOffset := none,
    networkActionType := none }

/-- The drag test of the `mouseup` listener:
displacement from the stored mousedown position exceeds 5 pixels on either
axis. -/
def isDragOf (s : FrameRecorder) (e : DomEvent) : Bool :=
  decide (5 < |e.clientX - s.startX|) || decide (5 < |e.clientY - s.startY|)

/-- Dispatch of one DOM event against the installed listeners.  The
`mousemove` case leaves the state untouched because `startRecording`
installs no `mousemove` listener; the other three cases are the listener
bodies (index.js 728-753). -/
def handleDomEvent (s : FrameRecorder) (e : DomEvent) : FrameRecorder :=
  match e.kind with
  | DomEventKind.mousedown =>
      if e.sameDoc then
        { actions := s.actions ++
            [mkAction ActionType.mousedown e.clientX e.clientY false e.now e.targetIsCanvas],
          isMouseDown := true, startX := e.clientX, startY := e.clientY }
      else s
  | DomEventKind.mouseup =>
      if s.isMouseDown && e.sameDoc then
        { s with
          actions := s.actions ++
            [mkAction ActionType.mouseup e.clientX e.clientY (isDragOf s e) e.now e.targetIsCanvas],
          isMouseDown := false }
      else s
  | DomEventKind.click =>
      if e.sameDoc && !s.isMouseDown then
        { s with
          actions := s.actions ++
            [mkAction ActionType.click e.clientX e.clientY false e.now e.targetIsCanvas] }
      else s
  | DomEventKind.mousemove => s

/-- A whole capture session inside one frame: the listeners process the
frame's DOM events in order. -/
def captureRun (s : FrameRecorder) (es : List DomEvent) : FrameRecorder :=
  es.foldl handleDomEvent s

lemma handleDomEvent_actions (s : FrameRecorder) (e : DomEvent) :
    (handleDomEvent s e).actions = s.actions
    ∨ ∃ a, (handleDomEvent s e).actions = s.actions ++ [a]
        ∧ a.type ≠ ActionType.mousemove ∧ a.type ≠ ActionType.networkAction := by
  rcases e with ⟨k, cx, cy, sd, tc, now⟩
  cases k
  case mousedown =>
    by_cases h : sd = true
    · refine Or.inr ⟨mkAction ActionType.mousedown cx cy false now tc, ?_, ?_, ?_⟩
      · simp [handleDomEvent, h]
      · simp [mkAction]
      · simp [mkAction]
    · left
      simp [handleDomEvent, h]
  case mouseup =>
    by_cases h : (s.isMouseDown && sd) = true
    · refine Or.inr ⟨mkAction ActionType.mouseup cx cy
          (isDragOf s ⟨DomEventKind.mouseup, cx, cy, sd, tc, now⟩) now tc, ?_, ?_, ?_⟩
      · simp [handleDomEvent, h]
      · simp [mkAction]
      · simp [mkAction]
    · left
      simp only [handleDomEvent]
      rw [if_neg (by simp_all)]
  case click =>
    by_cases h : (sd && !s.isMouseDown) = true
    · refine Or.inr ⟨mkAction ActionType.click cx cy false now tc, ?_, ?_, ?_⟩
      · simp [handleDomEvent, h]
      · simp [mkAction]
      · simp [mkAction]
    · left
      simp only [handleDomEvent]
      rw [if_neg (by simp_all)]
  case mousemove => exact Or.inl rfl

lemma captureRun_no_mousemove (es : List DomEvent) :
    ∀ s : FrameRecorder, (∀ a ∈ s.actions, a.type ≠ ActionType.mousemove) →
      ∀ a ∈ (captureRun s es).actions, a.type ≠ ActionType.mousemove := by
  induction es with
  | nil => exact fun s hs => hs
  | cons e rest ih =>
      intro s hs
      refine ih (handleDomEvent s e) ?_
      rcases handleDomEvent_actions s e with h | ⟨b, hb, hbm, _⟩
      · rw [h]
        exact hs
      · rw [hb]
        intro a ha
        rcases List.mem_append.mp ha with ha' | ha'
        · exact hs a ha'
        · rw [List.mem_singleton.mp ha']
          exact hbm

/-! ## Keyboard handler during a session
(`setupKeyboardListener` normal mode, index.js 467-495, and
`recordNetworkAction`, index.js 776-801) -/

/-- Normal-mode keys that can touch the recording state, the main frame's
capture buffer, or the live network fault.  `other` stands for every
remaining normal-mode key (`r`, `l`, `c`, `x`, `h`), none of which touches
any of those three. -/
inductive Key
  | s
  | f
  | p
  | n
  | other
deriving DecidableEq

/-- The session state the relevant keys act on: whether a recording is in
progress, the main frame's `window.__mouseRecorder` buffer (the one
`recordNetworkAction` pushes into), and whether the packet-loss fault is
currently applied to the page. -/
structure SessionState where
  isRecording : Bool
  main : FrameRecorder
  faultActive : Bool
deriving DecidableEq

/-- The network action pushed by `recordNetworkAction`: the source object is
`{type: 'networkAction', networkActionType, timestamp}`; the remaining
`Action` fields are absent in the source and defaulted here. -/
def netToggleAction (k : NetworkActionType) (now : ℤ) : Action :=
  { type := ActionType.networkAction, x := 0, y := 0, isDrag := false,
    timestamp := now, isCanvas := false, frameIndex := none,
    frameOffset := none, networkActionType := some k }

/-- One normal-mode keypress (index.js 467-495, happy path):
`s` starts or restarts recording (fresh per-frame recorder state),
`f` stops it, `p` records an enable-packet-loss action when recording and
then applies the fault in either case, `n` only disables the fault — the
handler for `n` never calls `recordNetworkAction`. -/
def handleKey (st : SessionState) (k : Key) (now : ℤ) : SessionState :=
  match k with
  | Key.s => { st with isRecording := true, main := initFrameRecorder }
  | Key.f => { st with isRecording := false }
  | Key.p =>
      let st1 :=
        if st.isRecording then
          { st with main := { st.main with actions := st.main.actions ++
              [netToggleAction NetworkActionType.enablePacketLoss now] } }
        else st
      { st1 with faultActive := true }
  | Key.n => { st with faultActive := false }
  | Key.other => st

/-- One input observed during a session: a DOM event in the main frame's
document (handled by the capture listeners only while recording — they are
installed by `s` and removed by `f`), or a keypress. -/
inductive SessionInput
  | domEvent (e : DomEvent)
  | keypress (k : Key) (now : ℤ)

/-- The session step function. -/
def sessionStep (st : SessionState) : SessionInput → SessionState
  | SessionInput.domEvent e =>
      if st.isRecording then { st with main := handleDomEvent st.main e } else st
  | SessionInput.keypress k now => handleKey st k now

/-- A whole session from an input stream. -/
def runSession (st : SessionState) (inputs : List SessionInput) : SessionState :=
  inputs.foldl sessionStep st

/-- Session state at program start. -/
def initSession : SessionState :=
  { isRecording := false, main := initFrameRecorder, faultActive := false }

/-- Every network action in the buffer is an enable-packet-loss action. -/
def onlyEnableRecorded (acts : List Action) : Bool :=
  (acts.filter (fun a => a.type == ActionType.networkAction)).all
    (fun a => a.networkActionType == some NetworkActionType.enablePacketLoss)

lemma onlyEnableRecorded_append_nonNetwork {acts : List Action} {a : Action}
    (h : onlyEnableRecorded acts = true) (ha : a.type ≠ ActionType.networkAction) :
    onlyEnableRecorded (acts ++ [a]) = true := by
  unfold onlyEnableRecorded at h ⊢
  rw [List.filter_append]
  have hbe : (a.type == ActionType.networkAction) = false := by
    simp [ha]
  have : List.filter (fun a => a.type == ActionType.networkAction) [a] = [] := by
    simp [List.filter_singleton, hbe]
  rw [this, List.append_nil]
  exact h

lemma onlyEnableRecorded_append_enable {acts : List Action} {now : ℤ}
    (h : onlyEnableRecorded acts = true) :
    onlyEnableRecorded
      (acts ++ [netToggleAction NetworkActionType.enablePacketLoss now]) = true := by
  unfold onlyEnableRecorded at h ⊢
  rw [List.filter_append, List.all_append]
  refine (Bool.and_eq_true _ _).mpr ⟨h, ?_⟩
  simp [netToggleAction]

lemma sessionStep_onlyEnable {st : SessionState} {inp : SessionInput}
    (h : onlyEnableRecorded st.main.actions = true) :
    onlyEnableRecorded (sessionStep st inp).main.actions = true := by
  cases inp with
  | domEvent e =>
      by_cases hr : st.isRecording = true
      · simp only [sessionStep, hr, if_pos]
        rcases handleDomEvent_actions st.main e with he | ⟨a, ha, _, han⟩
        · simpa [he] using h
        · simp only [ha]
          exact onlyEnableRecorded_append_nonNetwork h han
      · simp only [sessionStep]
        rw [if_neg hr]
        exact h
  | keypress k now =>
      cases k with
      | s => simp [sessionStep, handleKey, initFrameRecorder, onlyEnableRecorded]
      | f => exact h
      | p =>
          by_cases hr : st.isRecording = true
          · simp only [sessionStep, handleKey, hr, if_pos]
            exact onlyEnableRecorded_append_enable h
          · simp only [sessionStep, handleKey]
            rw [if_neg hr]
            exact h
      | n => exact h
      | other => exact h

lemma runSession_onlyEnable (inputs : List SessionInput) :
    ∀ st : SessionState, onlyEnableRecorded st.main.actions = true →
      onlyEnableRecorded (runSession st inputs).main.actions = true := by
  induction inputs with
  | nil => exact fun st h => h
  | cons inp rest ih =>
      intro st h
      exact ih (sessionStep st inp) (sessionStep_onlyEnable h)

/-! ## Replay engine (`replay`, index.js 927-1189)

A replay loop walks the recorded actions in order.  We model the primitive
driver calls it issues (`page.mouse.move/down/up/click`, the network
toggles, and `page.waitForTimeout`) as an event trace. -/

/-- One primitive driver call issued during replay. -/
inductive Event
  | move (x y : ℚ)
  | down
  | up
  | clickAt (x y : ℚ)
  | netEnable
  | netDisable
  | wait (ms : ℤ)
deriving DecidableEq

/-- Global x coordinate of an action during replay:
`action.x + action.frameOffset.x` when a frame offset was recorded,
`action.x` otherwise (index.js 1085-1092 and analogous branches). -/
def globalX (a : Action) : ℚ :=
  match a.frameOffset with
  | some o => a.x + o.x
  | none => a.x

/-- Global y coordinate of an action during replay. -/
def globalY (a : Action) : ℚ :=
  match a.frameOffset with
  | some o => a.y + o.y
  | none => a.y

/-- The drag interpolation of the `mouseup` branch (index.js 1141-1152):
`steps = 15`, `delta = (global - lastMouseDown) / steps`, and for
`step = 1 .. 15` a move to `lastMouseDown + delta * step` followed by a
5 ms wait. -/
def interpMoves (lx ly gx gy : ℚ) : List Event :=
  (List.range 15).flatMap (fun step =>
    [Event.move (lx + (gx - lx) / 15 * ((step : ℚ) + 1))
                (ly + (gy - ly) / 15 * ((step : ℚ) + 1)),
     Event.wait 5])

/-- The driver calls issued for one action, given the saved position
`(lx, ly)` of the last replayed mousedown (index.js 1076-1161):
network actions invoke the corresponding toggle; a click is one
global-coordinate click; a mousedown is a move plus button-down; a drag
`mousemove` is skipped (`continue`) and a non-drag `mousemove` matches no
branch, so neither issues a call; a mouseup first runs the drag
interpolation when `isDrag`, then always moves to the exact final position
and releases the button. -/
def actionEvents (lx ly : ℚ) (a : Action) : List Event :=
  match a.type with
  | ActionType.networkAction =>
      match a.networkActionType with
      | some NetworkActionType.enablePacketLoss => [Event.netEnable]
      | some NetworkActionType.disablePacketLoss => [Event.netDisable]
      | none => []
  | ActionType.click => [Event.clickAt (globalX a) (globalY a)]
  | ActionType.mousedown => [Event.move (globalX a) (globalY a), Event.down]
  | ActionType.mousemove => []
  | ActionType.mouseup =>
      (if a.isDrag then interpMoves lx ly (globalX a) (globalY a) else [])
        ++ [Event.move (globalX a) (globalY a), Event.up]

/-- A drag `mousemove` action hits `continue` (index.js 1126-1129), which
also skips the inter-action delay of lines 1163-1169; every other action
falls through to the delay code. -/
def skipsDelay (a : Action) : Bool :=
  a.type == ActionType.mousemove && a.isDrag

/-- The inter-action pacing wait (index.js 1163-1169): when a next action
exists, wait `next.timestamp - action.timestamp` if that is positive. -/
def delayEvents (a : Action) (next? : Option Action) : List Event :=
  match next? with
  | none => []
  | some b =>
      if a.timestamp < b.timestamp then [Event.wait (b.timestamp - a.timestamp)]
      else []

/-- Everything one loop iteration issues for one action (the action's own
driver calls followed by its pacing wait, unless `continue` skipped it). -/
def iterEvents (lx ly : ℚ) (a : Action) (next? : Option Action) : List Event :=
  actionEvents lx ly a ++ (if skipsDelay a then [] else delayEvents a next?)

/-- Update of the saved last-mousedown position: a mousedown overwrites it
with its global coordinates before any driver call is awaited
(index.js 1120-1121); no other action touches it. -/
def updDown (lx ly : ℚ) (a : Action) : ℚ × ℚ :=
  if a.type == ActionType.mousedown then (globalX a, globalY a) else (lx, ly)

/-- The cancellation flag as read by the poll before action index `i`
(index.js 1067-1070).  `cancelAt = some k` means the flag becomes set
between poll `k - 1` and poll `k` and, being never cleared during a replay,
stays set from then on; `none` means it is never set. -/
def cancelled (cancelAt : Option ℕ) (i : ℕ) : Bool :=
  match cancelAt with
  | none => false
  | some k => decide (k ≤ i)

/-- The failure oracle for one loop: `fails i = some n` means synthesizing
the action at index `i` throws after `n` of its driver calls were issued
(the `catch` at index.js 1170-1172 then logs and the loop continues);
`fails i = none` means index `i` completes normally.  The saved
last-mousedown position is updated before any call of the mousedown branch
is awaited, so a throw never loses that update. -/
def noFail : ℕ → Option ℕ := fun _ => none

/-- The action loop of one replay iteration (index.js 1066-1173), started
at poll index `i` with saved mousedown position `p`, producing the trace of
driver calls it issues.  The flag is polled before each action; when it
reads set, the loop breaks.  If the action's synthesis throws, the emitted
calls are a prefix of its normal calls and the loop continues with the next
action. -/
def runActions (fails : ℕ → Option ℕ) (cancelAt : Option ℕ) :
    ℕ → ℚ × ℚ → List Action → List Event
  | _, _, [] => []
  | i, p, a :: rest =>
      if cancelled cancelAt i then []
      else
        (match fails i with
          | none => iterEvents p.1 p.2 a rest.head?
          | some n => (iterEvents p.1 p.2 a rest.head?).take n)
          ++ runActions fails cancelAt (i + 1) (updDown p.1 p.2 a) rest

/-- The check `if (!this.cancelPostReplay)` after the action loop
(index.js 1175-1178): the post-replay orchestrator runs for this loop only
when the flag is still unset at that point, i.e. only when it was not set
before poll index `len` (one past the last action poll). -/
def postReplayInvoked (cancelAt : Option ℕ) (len : ℕ) : Bool :=
  match cancelAt with
  | none => true
  | some k => decide (len < k)

/-- One whole replay loop body: its driver-call trace, and whether the
post-replay orchestrator runs afterwards.  The loop initializes the saved
mousedown position to `(0, 0)` (index.js 1063-1064). -/
def replayLoop (fails : ℕ → Option ℕ) (cancelAt : Option ℕ)
    (acts : List Action) : List Event × Bool :=
  (runActions fails cancelAt 0 (0, 0) acts,
   postReplayInvoked cancelAt acts.length)

/-! ### Per-index decomposition of a replay-loop trace -/

/-- The saved mousedown position just before action index `k`, starting the
loop at position `p`: the fold of `updDown` over the first `k` actions.
It depends only on the actions, never on the failure oracle. -/
def stateFrom (p : ℚ × ℚ) (acts : List Action) (k : ℕ) : ℚ × ℚ :=
  (acts.take k).foldl (fun q a => updDown q.1 q.2 a) p

/-- The chunk of the trace contributed by action index `k` alone, for a
loop started at position `p`: the action's full iteration events, truncated
when the failure oracle value `fo` says its synthesis throws. -/
def chunkAt (acts : List Action) (p : ℚ × ℚ) (fo : Option ℕ) (k : ℕ) : List Event :=
  match acts[k]? with
  | none => []
  | some a =>
      match fo with
      | none => iterEvents (stateFrom p acts k).1 (stateFrom p acts k).2 a acts[k + 1]?
      | some n => (iterEvents (stateFrom p acts k).1 (stateFrom p acts k).2 a acts[k + 1]?).take n

/-- The number of actions a loop started at poll index `i` processes before
the cancellation poll stops it. -/
def cutoff (cancelAt : Option ℕ) (i len : ℕ) : ℕ :=
  match cancelAt with
  | none => len
  | some k => min (k - i) len

lemma cutoff_eq_zero_of_cancelled {cancelAt : Option ℕ} {i len : ℕ}
    (h : cancelled cancelAt i = true) : cutoff cancelAt i len = 0 := by
  cases cancelAt with
  | none => simp [cancelled] at h
  | some k =>
      simp only [cancelled, decide_eq_true_eq] at h
      simp only [cutoff]
      omega

lemma cutoff_cons_of_not_cancelled {cancelAt : Option ℕ} {i len : ℕ}
    (h : cancelled cancelAt i = false) :
    cutoff cancelAt i (len + 1) = cutoff cancelAt (i + 1) len + 1 := by
  cases cancelAt with
  | none => rfl
  | some k =>
      simp only [cancelled, decide_eq_false_iff_not] at h
      simp only [cutoff]
      omega

lemma flatMap_range_succ {α : Type} (f : ℕ → List α) (n : ℕ) :
    (List.range (n + 1)).flatMap f = f 0 ++ (List.range n).flatMap (fun k => f (k + 1)) := by
  rw [List.range_succ_eq_map, List.flatMap_cons, List.flatMap_map]

lemma chunkAt_zero_cons (a : Action) (rest : List Action) (p : ℚ × ℚ) (fo : Option ℕ) :
    chunkAt (a :: rest) p fo 0
      = (match fo with
          | none => iterEvents p.1 p.2 a rest.head?
          | some n => (iterEvents p.1 p.2 a rest.head?).take n) := by
  have h0 : (a :: rest)[(0 : ℕ)]? = some a := List.getElem?_cons_zero
  have h1 : (a :: rest)[(1 : ℕ)]? = rest.head? := by
    rw [List.getElem?_cons_succ, ← List.head?_eq_getElem?]
  have hs : stateFrom p (a :: rest) 0 = p := rfl
  simp only [chunkAt, h0, h1, hs]

lemma chunkAt_succ_cons (a : Action) (rest : List Action) (p : ℚ × ℚ)
    (fo : Option ℕ) (k : ℕ) :
    chunkAt (a :: rest) p fo (k + 1) = chunkAt rest (updDown p.1 p.2 a) fo k := by
  have hs : stateFrom p (a :: rest) (k + 1) = stateFrom (updDown p.1 p.2 a) rest k := by
    simp only [stateFrom, List.take_succ_cons, List.foldl_cons]
  simp only [chunkAt, List.getElem?_cons_succ, hs]

/-- A replay-loop trace is exactly the concatenation of the per-index
chunks of the actions processed before cancellation.  This makes both
cancellation and single-action failure local: the chunk of index `k`
depends only on the oracle value at `k`, and the saved mousedown position
threaded between chunks depends only on the actions themselves. -/
lemma runActions_eq_chunks (fails : ℕ → Option ℕ) (cancelAt : Option ℕ) :
    ∀ (acts : List Action) (i : ℕ) (p : ℚ × ℚ),
      runActions fails cancelAt i p acts
        = (List.range (cutoff cancelAt i acts.length)).flatMap
            (fun k => chunkAt acts p (fails (i + k)) k) := by
  intro acts
  induction acts with
  | nil =>
      intro i p
      have : cutoff cancelAt i 0 = 0 := by
        cases cancelAt <;> simp [cutoff]
      simp [runActions, this]
  | cons a rest ih =>
      intro i p
      by_cases hc : cancelled cancelAt i = true
      · rw [runActions, if_pos hc, cutoff_eq_zero_of_cancelled hc]
        rfl
      · have hc' : cancelled cancelAt i = false := by
          exact Bool.not_eq_true _ ▸ eq_false_of_ne_true hc
        rw [runActions, if_neg (by rw [hc']; exact Bool.false_ne_true),
          List.length_cons, cutoff_cons_of_not_cancelled hc',
          flatMap_range_succ]
        congr 1
        · rw [chunkAt_zero_cons]
          simp
        · rw [ih (i + 1) (updDown p.1 p.2 a)]
          have hfun : (fun k => chunkAt (a :: rest) p (fails (i + (k + 1))) (k + 1))
              = (fun k => chunkAt rest (updDown p.1 p.2 a) (fails (i + 1 + k)) k) := by
            funext k
            rw [chunkAt_succ_cons]
            have : i + (k + 1) = i + 1 + k := by omega
            rw [this]
          rw [hfun]

/-- Truncating a chunk is the same as evaluating it under a throwing oracle
value. -/
lemma chunkAt_some_eq_take (acts : List Action) (p : ℚ × ℚ) (n k : ℕ) :
    chunkAt acts p (some n) k = (chunkAt acts p none k).take n := by
  unfold chunkAt
  cases h : acts[k]? <;> simp

/-! ## Post-replay sequence (`postReplaySequence`, index.js 1191-1307)

The steps the orchestrator can perform, in the order the executed code
performs them.  `runScript` is declared so that its absence from every
produced step list is expressible: the bundled READMEs and the
configuration still describe an external-script step, but in the source the
whole script-execution block and the separate pre-reload network restore
(index.js 1217-1261) are commented out and never run. -/
inductive PostStep
  | pollWait (ms : ℕ)
  | runScript
  | startReload
  | shortWait (ms : ℕ)
  | gotoBlank
  | clearFault
  | gotoOriginalUrl
  | settleWait (ms : ℕ)
deriving DecidableEq

/-- The two configurable waits read by `loadConfig` (defaults 6000 and
8000 ms). -/
structure PostConfig where
  postReplayWaitTime : ℕ
  postReloadWaitTime : ℕ

/-- Number of iterations of the cancellable 500 ms poll-wait loop:
`for (let i = 0; i < postReplayWaitTime / 500; i++)` with JavaScript float
division, i.e. the ceiling of `postReplayWaitTime / 500`. -/
def waitIterations (cfg : PostConfig) : ℕ :=
  (cfg.postReplayWaitTime + 499) / 500

/-- The steps of a post-replay sequence that is never cancelled
(index.js 1194-1303): the poll-wait loop, then — with no script execution
and no separate network restore — the defensive reload: start the reload
without awaiting it, wait one second, navigate to `about:blank` to cancel
the in-flight requests, only then disable the packet loss, navigate back to
the original URL, and finally wait `postReloadWaitTime`. -/
def fullPostSteps (cfg : PostConfig) : List PostStep :=
  List.replicate (waitIterations cfg) (PostStep.pollWait 500)
    ++ [PostStep.startReload, PostStep.shortWait 1000, PostStep.gotoBlank,
        PostStep.clearFault, PostStep.gotoOriginalUrl,
        PostStep.settleWait cfg.postReloadWaitTime]

/-- The steps performed by `postReplaySequence` when the cancellation flag
becomes set before poll index `k` of the wait loop (`some k`; the loop
polls before each 500 ms wait, and once more after the loop) or never
(`none`).  A cancellation observed at any of those polls returns
immediately, skipping everything after the wait. -/
def postReplaySequence (cfg : PostConfig) (cancelAtPoll : Option ℕ) : List PostStep :=
  match cancelAtPoll with
  | some k =>
      if k ≤ waitIterations cfg then List.replicate k (PostStep.pollWait 500)
      else fullPostSteps cfg
  | none => fullPostSteps cfg

/-- The wait-time configuration defaults of `loadConfig`. -/
def defaultPostConfig : PostConfig :=
  { postReplayWaitTime := 6000, postReloadWaitTime := 8000 }

/-! ## Claim theorems -/

lemma interpMoves_eq_fractions (lx ly gx gy : ℚ) :
    interpMoves lx ly gx gy
      = (List.range 15).flatMap (fun k =>
          [Event.move (lx + (((k : ℚ) + 1) / 15) * (gx - lx))
                      (ly + (((k : ℚ) + 1) / 15) * (gy - ly)),
           Event.wait 5]) := by
  unfold interpMoves
  have hfun : (fun (step : ℕ) => [Event.move (lx + (gx - lx) / 15 * ((step : ℚ) + 1))
                                             (ly + (gy - ly) / 15 * ((step : ℚ) + 1)),
                                  Event.wait 5])
      = (fun (k : ℕ) => [Event.move (lx + (((k : ℚ) + 1) / 15) * (gx - lx))
                                    (ly + (((k : ℚ) + 1) / 15) * (gy - ly)),
                         Event.wait 5]) := by
    funext k
    have hx : lx + (gx - lx) / 15 * ((k : ℚ) + 1)
        = lx + (((k : ℚ) + 1) / 15) * (gx - lx) := by ring
    have hy : ly + (gy - ly) / 15 * ((k : ℚ) + 1)
        = ly + (((k : ℚ) + 1) / 15) * (gy - ly) := by ring
    rw [hx, hy]
  rw [hfun]

/-- C1: replaying a pointer-up action with `isDrag = true` issues exactly 15
intermediate mouse moves, the k-th (for k = 1..15) at the last replayed
mousedown's global position plus k/15 of the displacement towards the
pointer-up's global position, each followed by the fixed 5 ms delay, then
one final move to the exact pointer-up global position, then the
button-up. -/
theorem c1_drag_interpolation (lx ly : ℚ) (a : Action)
    (h1 : a.type = ActionType.mouseup) (h2 : a.isDrag = true) :
    actionEvents lx ly a
      = ((List.range 15).flatMap (fun k =>
          [Event.move (lx + (((k : ℚ) + 1) / 15) * (globalX a - lx))
                      (ly + (((k : ℚ) + 1) / 15) * (globalY a - ly)),
           Event.wait 5]))
        ++ [Event.move (globalX a) (globalY a), Event.up] := by
  obtain ⟨t, ax, ay, d, ts, c, fi, fo, na⟩ := a
  simp only at h1 h2
  subst h1
  subst h2
  simp only [actionEvents, if_true]
  rw [interpMoves_eq_fractions]

/-- The pointer-up action of the concrete instance in the claim: frame
offset `{0, 0}`, pointer-up at `(200, 100)`, `isDrag = true`. -/
def c1UpAction : Action :=
  { type := ActionType.mouseup, x := 200, y := 100, isDrag := true,
    timestamp := 1000, isCanvas := true, frameIndex := some 0,
    frameOffset := some ⟨0, 0⟩, networkActionType := none }

theorem c1_drag_interpolation_witness :
    actionEvents 100 100 c1UpAction
      = ((List.range 15).flatMap (fun k =>
          [Event.move (100 + (((k : ℚ) + 1) / 15) * 100) 100, Event.wait 5]))
        ++ [Event.move 200 100, Event.up] := by
  have h := c1_drag_interpolation 100 100 c1UpAction rfl rfl
  have hgx : globalX c1UpAction = 200 := by
    simp [globalX, c1UpAction]
  have hgy : globalY c1UpAction = 100 := by
    simp [globalY, c1UpAction]
  rw [h, hgx, hgy]
  norm_num

/-- C2: the executed post-replay sequence after a completed loop is the
cancellable bounded wait followed directly by the defensive reload (reload
started, one-second wait, navigation to a blank page, only then the network
restore, navigation back, settle wait); no external-script step occurs
anywhere in it, and a cancellation during the wait skips everything after
the wait. -/
theorem c2_post_replay_code_eval :
    PostStep.runScript ∉ postReplaySequence defaultPostConfig none
    ∧ postReplaySequence defaultPostConfig none
      = List.replicate 12 (PostStep.pollWait 500)
        ++ [PostStep.startReload, PostStep.shortWait 1000, PostStep.gotoBlank,
            PostStep.clearFault, PostStep.gotoOriginalUrl,
            PostStep.settleWait 8000]
    ∧ postReplaySequence defaultPostConfig (some 3)
      = List.replicate 3 (PostStep.pollWait 500) :=
  ⟨by decide, by decide, by decide⟩

/-- A sample prior in-memory Action Log entry for the load claims. -/
def c3PriorAction : Action :=
  mkAction ActionType.click 40 50 false 7 false

/-- C3 counterexample: a failed load does not preserve the prior in-memory
Action Log — with a prior log of one action and a payload that is neither a
bare array nor an object with an `actions` field, the log after the load is
not the prior log (it is `[]`). -/
theorem c3_counterexample :
    finishLoading [c3PriorAction] (some Payload.other) ≠ [c3PriorAction] := by
  decide

/-- C3 (amended): if loading a persisted recording file fails, the load is
aborted — no actions from the file are taken — and the in-memory Action Log
is cleared to empty, not preserved. -/
theorem c3_load_clears (prior : List Action) (payload : Option Payload)
    (h : loadFails payload = true) : finishLoading prior payload = [] := by
  match payload with
  | none => rfl
  | some (Payload.arr as) => simp [loadFails] at h
  | some (Payload.obj (some as)) => simp [loadFails] at h
  | some (Payload.obj none) => rfl
  | some Payload.other => rfl

theorem c3_load_clears_witness :
    loadFails (some (Payload.obj none)) = true
    ∧ finishLoading [c3PriorAction] (some (Payload.obj none)) = [] :=
  ⟨rfl, c3_load_clears [c3PriorAction] (some (Payload.obj none)) rfl⟩

/-- C4: whatever the per-frame buffers hold and in whatever order the
frames are read back, the Action Log produced by the stop-recording merge
has non-decreasing capture timestamps across the whole sequence. -/
theorem c4_merge_sorted (offsets : List Offset)
    (buffers : List (Option (List Action))) :
    (stopRecordingMerge offsets buffers).Pairwise
      (fun u v => u.timestamp ≤ v.timestamp) :=
  pairwise_sortByTimestamp _

/-- C5: if the cancellation flag becomes set before the poll at action
index `i`, the loop's trace is exactly the concatenated per-index chunks of
actions `0..i-1` (so those were fully synthesized and actions from `i` on
were never synthesized), and the post-replay orchestrator is not invoked
for that loop; an uncancelled loop produces every action's chunk. -/
theorem c5_cancellation (acts : List Action) (i : ℕ) (hi : i ≤ acts.length) :
    runActions noFail (some i) 0 (0, 0) acts
      = (List.range i).flatMap (fun k => chunkAt acts (0, 0) none k)
    ∧ postReplayInvoked (some i) acts.length = false
    ∧ runActions noFail none 0 (0, 0) acts
      = (List.range acts.length).flatMap (fun k => chunkAt acts (0, 0) none k) := by
  refine ⟨?_, ?_, ?_⟩
  · rw [runActions_eq_chunks]
    have h1 : cutoff (some i) 0 acts.length = i := by
      simp only [cutoff]
      omega
    rw [h1]
    rfl
  · simp only [postReplayInvoked, decide_eq_false_iff_not]
    omega
  · rw [runActions_eq_chunks]
    rfl

/-- A two-action log (mousedown, then a drag mouseup) for the C5 witness. -/
def c5Acts : List Action :=
  [{ type := ActionType.mousedown, x := 20, y := 30, isDrag := false,
     timestamp := 100, isCanvas := false, frameIndex := some 0,
     frameOffset := some ⟨0, 0⟩, networkActionType := none },
   { type := ActionType.mouseup, x := 80, y := 30, isDrag := true,
     timestamp := 400, isCanvas := false, frameIndex := some 0,
     frameOffset := some ⟨0, 0⟩, networkActionType := none }]

theorem c5_cancellation_witness :
    1 ≤ c5Acts.length
    ∧ (runActions noFail (some 1) 0 (0, 0) c5Acts
        = (List.range 1).flatMap (fun k => chunkAt c5Acts (0, 0) none k)
      ∧ postReplayInvoked (some 1) c5Acts.length = false
      ∧ runActions noFail none 0 (0, 0) c5Acts
        = (List.range c5Acts.length).flatMap (fun k => chunkAt c5Acts (0, 0) none k)) :=
  ⟨by decide, c5_cancellation c5Acts 1 (by decide)⟩

/-- C6: when synthesizing the single action at index `i` throws (after any
prefix of its driver calls), the loop's trace is still the concatenation of
every action's chunk, with only index `i`'s chunk truncated — every
subsequent action of the same loop is synthesized exactly as it would have
been, so one failing action never aborts the remainder of the sequence. -/
theorem c6_failure_is_local (acts : List Action) (i n : ℕ) :
    runActions (fun j => if j = i then some n else none) none 0 (0, 0) acts
      = (List.range acts.length).flatMap
          (fun k => if k = i then (chunkAt acts (0, 0) none k).take n
                    else chunkAt acts (0, 0) none k) := by
  rw [runActions_eq_chunks]
  have hc : cutoff none 0 acts.length = acts.length := rfl
  rw [hc]
  have hfun : (fun k => chunkAt acts (0, 0)
        ((fun j => if j = i then some n else none) (0 + k)) k)
      = (fun k => if k = i then (chunkAt acts (0, 0) none k).take n
                  else chunkAt acts (0, 0) none k) := by
    funext k
    simp only [Nat.zero_add]
    by_cases hk : k = i
    · simp [hk, chunkAt_some_eq_take]
    · simp [hk]
  rw [hfun]

lemma enablePacketLoss_acc (mc : NetCond) (ch : List Frame) :
    enablePacketLoss ⟨true, mc, ch⟩
      = ⟨true, NetCond.blocked, ch.map (setChildCond NetCond.blocked)⟩ := rfl

lemma disablePacketLoss_acc (mc : NetCond) (ch : List Frame) :
    disablePacketLoss ⟨true, mc, ch⟩
      = ⟨true, NetCond.normal, ch.map (setChildCond NetCond.normal)⟩ := rfl

lemma enablePacketLoss_inacc (mc : NetCond) (ch : List Frame) :
    enablePacketLoss ⟨false, mc, ch⟩ = ⟨false, mc, ch⟩ := rfl

lemma disablePacketLoss_inacc (mc : NetCond) (ch : List Frame) :
    disablePacketLoss ⟨false, mc, ch⟩ = ⟨false, mc, ch⟩ := rfl

lemma exOk_enable (s : PageNet) : exOk (enablePacketLossE s) = true := by
  unfold enablePacketLossE
  cases setAllFramesCond NetCond.blocked s <;> rfl

lemma exOk_disable (s : PageNet) : exOk (disablePacketLossE s) = true := by
  unfold disablePacketLossE
  cases setAllFramesCond NetCond.normal s <;> rfl

/-- C7: starting from any fault-free page state (however many child frames,
accessible or not), enabling the fault and then immediately disabling it
restores exactly the original state — indistinguishable from never having
toggled; neither toggle throws to its caller even when child frames reject
the debug channel; and disabling with no fault active is a no-op, with
disabling idempotent in general. -/
theorem c7_fault_roundtrip (s : PageNet) (h : noFault s) :
    disablePacketLoss (enablePacketLoss s) = s
    ∧ exOk (enablePacketLossE s) = true
    ∧ exOk (disablePacketLossE s) = true
    ∧ disablePacketLoss s = s
    ∧ disablePacketLoss (disablePacketLoss s) = disablePacketLoss s := by
  obtain ⟨ma, mc, ch⟩ := s
  obtain ⟨hmc, hch⟩ := h
  simp only at hmc hch
  subst hmc
  cases ma
  case false =>
    refine ⟨?_, exOk_enable _, exOk_disable _, ?_, ?_⟩
    · rw [enablePacketLoss_inacc, disablePacketLoss_inacc]
    · rw [disablePacketLoss_inacc]
    · rw [disablePacketLoss_inacc, disablePacketLoss_inacc]
  case true =>
    refine ⟨?_, exOk_enable _, exOk_disable _, ?_, ?_⟩
    · rw [enablePacketLoss_acc, disablePacketLoss_acc, map_setChild_roundtrip hch]
    · rw [disablePacketLoss_acc, map_setChild_normal_self hch]
    · rw [disablePacketLoss_acc, disablePacketLoss_acc, map_setChild_idem]

/-- A fault-free page with one accessible and one debug-channel-rejecting
child frame. -/
def c7Page : PageNet :=
  { mainAccessible := true, mainCond := NetCond.normal,
    children := [⟨true, NetCond.normal⟩, ⟨false, NetCond.normal⟩] }

theorem c7_fault_roundtrip_witness :
    noFault c7Page
    ∧ (disablePacketLoss (enablePacketLoss c7Page) = c7Page
       ∧ exOk (enablePacketLossE c7Page) = true
       ∧ exOk (disablePacketLossE c7Page) = true
       ∧ disablePacketLoss c7Page = c7Page
       ∧ disablePacketLoss (disablePacketLoss c7Page)
         = disablePacketLoss c7Page) :=
  ⟨by decide, c7_fault_roundtrip c7Page (by decide)⟩

/-- C8: loading a legacy bare-array recording and loading a
metadata-wrapped recording holding the same action sequence produce
identical in-memory Action Logs (namely that sequence), whatever was in
memory before either load. -/
theorem c8_legacy_equivalence (priorA priorB as : List Action) :
    finishLoading priorA (some (Payload.arr as))
      = finishLoading priorB (some (Payload.obj (some as)))
    ∧ finishLoading priorA (some (Payload.arr as)) = as :=
  ⟨rfl, rfl⟩

/-- A capture-session event stream with a mousemove between an active
mousedown and the mouseup, all targeting the frame's own document. -/
def c9MoveStream : List DomEvent :=
  [⟨DomEventKind.mousedown, 10, 10, true, false, 0⟩,
   ⟨DomEventKind.mousemove, 60, 10, true, false, 1⟩,
   ⟨DomEventKind.mouseup, 110, 10, true, false, 2⟩]

/-- C9 counterexample: the listener set installed by `startRecording` does
not cover mousemove, and a mousemove occurring while a pointer-down is
active in the frame records nothing — the captured log of a
down/move/up stream holds only the mousedown and the mouseup. -/
theorem c9_counterexample :
    DomEventKind.mousemove ∉ installedListenerKinds
    ∧ (captureRun initFrameRecorder c9MoveStream).actions.map Action.type
      = [ActionType.mousedown, ActionType.mouseup] :=
  ⟨by decide, by decide⟩

/-- C9 (amended): starting capture installs, in each injectable frame's
document, capture-phase listeners for exactly pointer-down, pointer-up and
click; no pointer-move listener is installed, and a captured Action Log
never contains an action of kind pointer-move. -/
theorem c9_listener_set (es : List DomEvent) :
    installedListenerKinds
      = [DomEventKind.mousedown, DomEventKind.mouseup, DomEventKind.click]
    ∧ listenersUseCapture = true
    ∧ ∀ a ∈ (captureRun initFrameRecorder es).actions,
        a.type ≠ ActionType.mousemove := by
  refine ⟨rfl, rfl, ?_⟩
  exact captureRun_no_mousemove es initFrameRecorder (by simp [initFrameRecorder])

theorem c9_listener_set_witness :
    installedListenerKinds
      = [DomEventKind.mousedown, DomEventKind.mouseup, DomEventKind.click] :=
  (c9_listener_set []).1

/-- C10: over any session input stream, the main capture buffer only ever
holds enable-packet-loss network actions — the disable-network key
immediately disables the fault but appends nothing to the buffer, while the
enable key, during recording, both appends the enable action and applies
the fault. -/
theorem c10_no_disable_recorded (inputs : List SessionInput) :
    onlyEnableRecorded (runSession initSession inputs).main.actions = true
    ∧ (∀ st : SessionState, ∀ now : ℤ,
        handleKey st Key.n now = { st with faultActive := false })
    ∧ (∀ st : SessionState, ∀ now : ℤ, st.isRecording = true →
        handleKey st Key.p now
          = { st with
              main := { st.main with actions := st.main.actions ++
                [netToggleAction NetworkActionType.enablePacketLoss now] },
              faultActive := true }) := by
  refine ⟨runSession_onlyEnable inputs initSession rfl, fun st now => rfl, ?_⟩
  intro st now hr
  simp only [handleKey, hr, if_true]

/-- A session: start recording, click, record-and-enable packet loss, drag,
disable packet loss, stop. -/
def c10DemoInputs : List SessionInput :=
  [SessionInput.keypress Key.s 0,
   SessionInput.domEvent ⟨DomEventKind.mousedown, 5, 5, true, false, 1⟩,
   SessionInput.keypress Key.p 2,
   SessionInput.domEvent ⟨DomEventKind.mouseup, 6, 6, true, false, 3⟩,
   SessionInput.keypress Key.n 4,
   SessionInput.keypress Key.f 5]

theorem c10_no_disable_recorded_witness :
    onlyEnableRecorded (runSession initSession c10DemoInputs).main.actions = true :=
  (c10_no_disable_recorded c10DemoInputs).1

end Autorefresh
